import Mathlib

/-!
Verification of the NaraNetra visual-assistance client (hackathon-volio).

The development shallowly embeds the capture/analysis/speech orchestration
logic of the repository:

* `src/src/utils/imageHash.ts` — perceptual-hash distance and similarity.
* `src/src/utils/speech.ts` — the `speak` backend-selection policy.
* `src/src/app/page.tsx` — the streaming analysis/conversation readers,
  the result cache inside `optimizedAnalysis`, the narration capture
  handler, `switchMode`, and the guidance-mode timer effect.

Stateful browser code is embedded as explicit state-passing step functions;
network and timer nondeterminism is supplied as explicit event lists.
-/

namespace NaraNetra

/-- The two application modes (`type AppMode = 'narration' | 'guidance'`,
page.tsx line 14). -/
inductive Mode where
  | narration
  | guidance
deriving DecidableEq

/-- The string a mode renders to inside a template literal (the TypeScript
union members are the strings themselves). -/
def modeString : Mode → String
  | Mode.narration => "narration"
  | Mode.guidance => "guidance"

/-- Hamming distance between two hash strings
(`calculateHashDistance`, imageHash.ts lines 55-68).  The source returns
the JavaScript value `Infinity` when the lengths differ; that value is
embedded as `none`, and a finite count of differing positions as `some`. -/
def calculateHashDistance (hash1 hash2 : String) : Option Nat :=
  if hash1.length ≠ hash2.length then
    none
  else
    some ((hash1.data.zip hash2.data).countP (fun p => p.1 != p.2))

/-- Similarity predicate (`areImagesSimilar`, imageHash.ts lines 71-74):
`distance <= threshold`.  A `none` distance stands for `Infinity`, and
`Infinity <= threshold` is false for every finite threshold. -/
def areImagesSimilar (hash1 hash2 : String) (threshold : Nat) : Bool :=
  match calculateHashDistance hash1 hash2 with
  | none => false
  | some d => decide (d ≤ threshold)

/-- The default value of the `threshold` parameter of `areImagesSimilar`
(imageHash.ts line 71).  The call site in `optimizedAnalysis`
(page.tsx line 328) passes no threshold, so this default applies there,
in both modes. -/
def defaultSimilarThreshold : Nat := 6

/-- Claim C9: for hash strings of different lengths the distance is
`Infinity` (embedded as `none`) and `areImagesSimilar` is false at every
finite threshold, so a fingerprint is never judged similar to one of a
different length. -/
theorem C9_length_mismatch_never_similar (h1 h2 : String)
    (hlen : h1.length ≠ h2.length) :
    calculateHashDistance h1 h2 = none ∧
      ∀ t : Nat, areImagesSimilar h1 h2 t = false := by
  constructor
  · simp [calculateHashDistance, hlen]
  · intro t
    simp [areImagesSimilar, calculateHashDistance, hlen]

/-- Witness for C9 at the concrete hashes "0" and "01" and threshold 64. -/
theorem C9_length_mismatch_never_similar_witness :
    calculateHashDistance "0" "01" = none ∧
      areImagesSimilar "0" "01" 64 = false := by
  have h := C9_length_mismatch_never_similar "0" "01" (by decide)
  exact ⟨h.1, h.2 64⟩

/-! ## Speech backend selection (`speak`, speech.ts lines 10-107) -/

/-- Outcome of the remote (Gemini) TTS request inside `speak`
(speech.ts lines 34-103), covering every branch of the source:
a 200 response with an audio content-type whose playback succeeds, the same
with failing playback, a 200 JSON body carrying `fallback: true`, a 200
JSON body without the fallback flag (the code falls through to the final
default), a non-ok HTTP response, and a thrown request error. -/
inductive RemoteOutcome where
  | okAudio
  | okAudioPlayFails
  | okJsonFallback
  | okJsonOther
  | httpError
  | requestThrew
deriving DecidableEq

/-- Which synthesizer ends up producing the audio. -/
inductive SynthBackend where
  | gemini
  | webTTS
deriving DecidableEq

/-- The `speak` policy of speech.ts lines 10-107.  Returns whether the
remote backend was attempted (a `/api/tts` fetch was issued) and which
backend finally produced audio.  Source branches:
line 30 `if (forceWebTTS || text.length < 10) return speakWithWebTTS`;
otherwise the fetch is attempted and each failure path (playback error
lines 61-78, JSON fallback lines 82-86, fall-through default line 106,
error response lines 88-99, thrown error lines 100-103) ends in
`speakWithWebTTS`. -/
def speak (text : String) (forceWebTTS : Bool) (remote : RemoteOutcome) :
    Bool × SynthBackend :=
  if forceWebTTS || decide (text.length < 10) then
    (false, SynthBackend.webTTS)
  else
    match remote with
    | RemoteOutcome.okAudio => (true, SynthBackend.gemini)
    | RemoteOutcome.okAudioPlayFails => (true, SynthBackend.webTTS)
    | RemoteOutcome.okJsonFallback => (true, SynthBackend.webTTS)
    | RemoteOutcome.okJsonOther => (true, SynthBackend.webTTS)
    | RemoteOutcome.httpError => (true, SynthBackend.webTTS)
    | RemoteOutcome.requestThrew => (true, SynthBackend.webTTS)

/-- Claim C8: with `forceFallback` set or text shorter than 10 characters,
`speak` uses the on-device Web TTS directly without attempting the remote
backend; otherwise the remote backend is attempted first and every remote
failure transparently falls back to the on-device synthesizer. -/
theorem C8_backend_selection (text : String) (force : Bool)
    (remote : RemoteOutcome) :
    ((force = true ∨ text.length < 10) →
        speak text force remote = (false, SynthBackend.webTTS)) ∧
      (force = false → 10 ≤ text.length →
        (speak text force remote).1 = true ∧
          (remote ≠ RemoteOutcome.okAudio →
            (speak text force remote).2 = SynthBackend.webTTS) ∧
          (remote = RemoteOutcome.okAudio →
            (speak text force remote).2 = SynthBackend.gemini)) := by
  constructor
  · rintro (hf | hshort)
    · simp [speak, hf]
    · simp [speak, hshort]
  · intro hf hlong
    have hcond : (force || decide (text.length < 10)) = false := by
      simp [hf, Nat.not_lt.mpr hlong]
    refine ⟨?_, ?_, ?_⟩
    · cases remote <;> simp [speak, hcond]
    · intro hne
      cases remote <;> simp_all [speak, hcond, Nat.not_lt.mpr hlong]
    · intro heq
      subst heq
      simp [speak, hcond]

/-- Witness for C8: a 9-character text goes straight to Web TTS, and a
long text with a failing remote request falls back to Web TTS after an
attempt. -/
theorem C8_backend_selection_witness :
    speak "too short" false RemoteOutcome.okAudio =
        (false, SynthBackend.webTTS) ∧
      (speak "a sufficiently long sentence" false
          RemoteOutcome.requestThrew).1 = true ∧
      (speak "a sufficiently long sentence" false
          RemoteOutcome.requestThrew).2 = SynthBackend.webTTS := by
  refine ⟨?_, ?_, ?_⟩
  · exact (C8_backend_selection "too short" false RemoteOutcome.okAudio).1
      (Or.inr (by decide))
  · exact ((C8_backend_selection "a sufficiently long sentence" false
      RemoteOutcome.requestThrew).2 rfl (by decide)).1
  · exact ((C8_backend_selection "a sufficiently long sentence" false
      RemoteOutcome.requestThrew).2 rfl (by decide)).2.1 (by decide)

/-! ## Streaming analysis and conversation readers
(`streamAnalysis` page.tsx lines 113-221, `streamConversation` lines
224-319).  The SSE events parsed by the readers are embedded as a list;
the reader is a fold over that list. -/

/-- One parsed server-sent event (`data.type` in page.tsx lines 162-202):
`start`, `chunk` carrying the cumulative `fullText`, the terminal
`complete` carrying the final text (for the conversation reader, the
response), or `errorEvt` carrying the error message. -/
inductive StreamEvent where
  | start
  | chunk (fullText : String)
  | complete (fullText : String)
  | errorEvt (message : String)
deriving DecidableEq

/-- Reader state: the running `fullText` buffer, the `hasStartedSpeaking`
flag, the texts passed to `speakWithSettings` so far (in call order), and
the promise outcome (`some (Except.ok t)` once resolved,
`some (Except.error m)` once rejected, `none` while pending). -/
structure StreamState where
  fullText : String
  hasStartedSpeaking : Bool
  speechCalls : List String
  outcome : Option (Except String String)

/-- Initial reader state. -/
def streamInit : StreamState :=
  { fullText := ""
    hasStartedSpeaking := false
    speechCalls := []
    outcome := none }

/-- One event of the `streamAnalysis` reader (page.tsx lines 162-202).
On `chunk` the buffer is updated and, if speech has not started and the
buffer reached 30 characters, `speakWithSettings(fullText)` is called
(lines 168-171).  On `complete`, if speech never started the full text is
spoken (lines 191-193) and the promise resolves.  On `errorEvt` the error
is spoken and the promise rejects (lines 197-201).  After resolution or
rejection the reader has returned, so further events are not processed. -/
def streamAnalysisStep (s : StreamState) (e : StreamEvent) : StreamState :=
  if s.outcome.isSome then s
  else
    match e with
    | StreamEvent.start => s
    | StreamEvent.chunk t =>
        if !s.hasStartedSpeaking && decide (30 ≤ t.length) then
          { s with
            fullText := t
            hasStartedSpeaking := true
            speechCalls := s.speechCalls ++ [t] }
        else
          { s with fullText := t }
    | StreamEvent.complete t =>
        if s.hasStartedSpeaking then
          { s with outcome := some (Except.ok t) }
        else
          { s with
            speechCalls := s.speechCalls ++ [t]
            outcome := some (Except.ok t) }
    | StreamEvent.errorEvt m =>
        { s with
          speechCalls := s.speechCalls ++ [m]
          outcome := some (Except.error m) }

/-- The `streamAnalysis` reader over a whole event sequence. -/
def streamAnalysisRun (events : List StreamEvent) : StreamState :=
  events.foldl streamAnalysisStep streamInit

/-- One event of the `streamConversation` reader (page.tsx lines 269-300).
It differs from the analysis reader in that `start` speaks a processing
notice (line 271) and the chunk speech threshold is 20 characters
(lines 276-279). -/
def streamConversationStep (s : StreamState) (e : StreamEvent) :
    StreamState :=
  if s.outcome.isSome then s
  else
    match e with
    | StreamEvent.start =>
        { s with speechCalls := s.speechCalls ++ ["Processing your message..."] }
    | StreamEvent.chunk t =>
        if !s.hasStartedSpeaking && decide (20 ≤ t.length) then
          { s with
            fullText := t
            hasStartedSpeaking := true
            speechCalls := s.speechCalls ++ [t] }
        else
          { s with fullText := t }
    | StreamEvent.complete t =>
        if s.hasStartedSpeaking then
          { s with outcome := some (Except.ok t) }
        else
          { s with
            speechCalls := s.speechCalls ++ [t]
            outcome := some (Except.ok t) }
    | StreamEvent.errorEvt m =>
        { s with
          speechCalls := s.speechCalls ++ [m]
          outcome := some (Except.error m) }

/-- The `streamConversation` reader over a whole event sequence. -/
def streamConversationRun (events : List StreamEvent) : StreamState :=
  events.foldl streamConversationStep streamInit

/-- An analysis-reader event that keeps the reader silent: `start`, or a
`chunk` whose cumulative text is below the 30-character speech threshold. -/
def analysisEventSilent : StreamEvent → Bool
  | StreamEvent.start => true
  | StreamEvent.chunk t => decide (t.length < 30)
  | StreamEvent.complete _ => false
  | StreamEvent.errorEvt _ => false

/-- A conversation-reader event that keeps the reader silent: a `chunk`
whose cumulative text is below the 20-character speech threshold (the
`start` event itself already speaks a processing notice). -/
def conversationEventSilent : StreamEvent → Bool
  | StreamEvent.start => false
  | StreamEvent.chunk t => decide (t.length < 20)
  | StreamEvent.complete _ => false
  | StreamEvent.errorEvt _ => false

theorem streamAnalysis_silent_aux (events : List StreamEvent) :
    ∀ s : StreamState, s.hasStartedSpeaking = false →
      (∀ e ∈ events, analysisEventSilent e = true) →
      (events.foldl streamAnalysisStep s).speechCalls = s.speechCalls ∧
        (events.foldl streamAnalysisStep s).hasStartedSpeaking = false := by
  induction events with
  | nil => intro s hs _; exact ⟨rfl, hs⟩
  | cons e es ih =>
      intro s hs hsil
      have he : analysisEventSilent e = true := hsil e (List.mem_cons_self e es)
      have hes : ∀ e' ∈ es, analysisEventSilent e' = true := fun e' h =>
        hsil e' (List.mem_cons_of_mem e h)
      have hstep : (streamAnalysisStep s e).speechCalls = s.speechCalls ∧
          (streamAnalysisStep s e).hasStartedSpeaking = false := by
        cases e with
        | start => simp [streamAnalysisStep, hs]
        | chunk t =>
            have ht : t.length < 30 := by
              simpa [analysisEventSilent] using he
            by_cases hout : s.outcome.isSome = true
            · simp [streamAnalysisStep, hout, hs]
            · simp [streamAnalysisStep, hout, hs, Nat.not_le.mpr ht]
        | complete t => simp [analysisEventSilent] at he
        | errorEvt m => simp [analysisEventSilent] at he
      have := ih (streamAnalysisStep s e) hstep.2 hes
      simp only [List.foldl_cons]
      exact ⟨this.1.trans hstep.1, this.2⟩

theorem streamConversation_silent_aux (events : List StreamEvent) :
    ∀ s : StreamState, s.hasStartedSpeaking = false →
      (∀ e ∈ events, conversationEventSilent e = true) →
      (events.foldl streamConversationStep s).speechCalls = s.speechCalls ∧
        (events.foldl streamConversationStep s).hasStartedSpeaking = false := by
  induction events with
  | nil => intro s hs _; exact ⟨rfl, hs⟩
  | cons e es ih =>
      intro s hs hsil
      have he : conversationEventSilent e = true := hsil e (List.mem_cons_self e es)
      have hes : ∀ e' ∈ es, conversationEventSilent e' = true := fun e' h =>
        hsil e' (List.mem_cons_of_mem e h)
      have hstep : (streamConversationStep s e).speechCalls = s.speechCalls ∧
          (streamConversationStep s e).hasStartedSpeaking = false := by
        cases e with
        | start => simp [conversationEventSilent] at he
        | chunk t =>
            have ht : t.length < 20 := by
              simpa [conversationEventSilent] using he
            by_cases hout : s.outcome.isSome = true
            · simp [streamConversationStep, hout, hs]
            · simp [streamConversationStep, hout, hs, Nat.not_le.mpr ht]
        | complete t => simp [conversationEventSilent] at he
        | errorEvt m => simp [conversationEventSilent] at he
      have := ih (streamConversationStep s e) hstep.2 hes
      simp only [List.foldl_cons]
      exact ⟨this.1.trans hstep.1, this.2⟩

/-- Counterexample to claim C1 as stated: after only a `start` and one
`chunk` event — no `complete` has arrived — the analysis reader has
already called the speech coordinator once (the chunk reached the
30-character threshold), and the conversation reader speaks its
processing notice already at `start`. -/
theorem C1_speech_before_complete_counterexample :
    (streamAnalysisRun
        [StreamEvent.start,
         StreamEvent.chunk "There is a wooden table with two chairs."]).speechCalls =
      ["There is a wooden table with two chairs."] ∧
      (streamConversationRun [StreamEvent.start]).speechCalls =
        ["Processing your message..."] := by
  constructor
  · rfl
  · rfl

/-- Claim C1 as amended: the readers stay silent before `complete` only
while every chunk is below the speech threshold (30 characters for
analysis, 20 for conversation; the conversation reader additionally
speaks a fixed processing notice at `start`); the first chunk at or above
the threshold triggers speech immediately, before any `complete` event. -/
theorem C1_speech_threshold_behavior :
    (∀ events : List StreamEvent,
        (∀ e ∈ events, analysisEventSilent e = true) →
        (streamAnalysisRun events).speechCalls = []) ∧
      (∀ (s : StreamState) (t : String), s.outcome = none →
        s.hasStartedSpeaking = false → 30 ≤ t.length →
        (streamAnalysisStep s (StreamEvent.chunk t)).speechCalls =
          s.speechCalls ++ [t]) ∧
      (∀ events : List StreamEvent,
        (∀ e ∈ events, conversationEventSilent e = true) →
        (streamConversationRun events).speechCalls = []) := by
  refine ⟨?_, ?_, ?_⟩
  · intro events hsil
    exact (streamAnalysis_silent_aux events streamInit rfl hsil).1
  · intro s t hout hs ht
    simp [streamAnalysisStep, hout, hs, ht]
  · intro events hsil
    exact (streamConversation_silent_aux events streamInit rfl hsil).1

/-- Witness for the amended C1: a short-chunk-only analysis stream stays
silent, and a 40-character chunk triggers one immediate speech call. -/
theorem C1_speech_threshold_behavior_witness :
    (streamAnalysisRun
        [StreamEvent.start, StreamEvent.chunk "A short text"]).speechCalls = [] ∧
      (streamAnalysisStep streamInit
          (StreamEvent.chunk "A description long enough to start audio")).speechCalls =
        ["A description long enough to start audio"] := by
  constructor
  · exact C1_speech_threshold_behavior.1
      [StreamEvent.start, StreamEvent.chunk "A short text"] (by decide)
  · exact C1_speech_threshold_behavior.2.1 streamInit
      "A description long enough to start audio" rfl rfl (by decide)

/-! ## The result cache of `optimizedAnalysis` (page.tsx lines 333-359)

The source keeps results in a JavaScript `Map<string, Description>`
(`imageCache`, page.tsx line 45).  A JavaScript `Map` iterates in
insertion order, `set` on an existing key updates the value in place, and
`keys().next().value` yields the first-inserted key; the embedding is an
association list in insertion order. -/

/-- An analysis result (the `Description` interface, page.tsx lines 8-12;
the `Date` timestamp is embedded as a natural number). -/
structure Description where
  text : String
  timestamp : Nat
  mode : Mode
deriving DecidableEq

/-- The `imageCache` map: entries in insertion order. -/
abbrev Cache := List (String × Description)

/-- The keys of the cache, in insertion order. -/
def cacheKeys (c : Cache) : List String := c.map Prod.fst

/-- `imageCache.get(key)` (page.tsx line 335).  JavaScript string keys
compare by value, embedded as decidable string equality. -/
def cacheGet (c : Cache) (k : String) : Option Description :=
  (c.find? (fun p => decide (p.1 = k))).map Prod.snd

/-- JavaScript `Map.prototype.set` (page.tsx line 348): update the value
in place when the key is present, otherwise append a new entry at the
end of the insertion order. -/
def mapSet (c : Cache) (k : String) (v : Description) : Cache :=
  if (c.find? (fun p => decide (p.1 = k))).isSome then
    c.map (fun p => if p.1 = k then (k, v) else p)
  else
    c ++ [(k, v)]

/-- JavaScript `Map.prototype.delete` (page.tsx line 354): remove the
entry with the given key. -/
def mapDelete (c : Cache) (k : String) : Cache :=
  c.filter (fun p => !decide (p.1 = k))

/-- The cache insertion of page.tsx lines 346-359: `set` the new entry,
then if the size exceeds 10 take the first key of the iteration order and
— after the source's JavaScript truthiness check `if (firstKey)`, which
skips the empty string — delete it. -/
def cachePut (c : Cache) (k : String) (v : Description) : Cache :=
  let c1 := mapSet c k v
  if 10 < c1.length then
    match c1.head? with
    | some p => if p.1 = "" then c1 else mapDelete c1 p.1
    | none => c1
  else c1

/-- The cache key of page.tsx line 334: the template literal
`hash-mode` (string concatenation). -/
def encodeKey (hash : String) (m : Mode) : String :=
  hash ++ "-" ++ modeString m

/-- Cache lookup keyed by fingerprint and mode. -/
def cacheGetHM (c : Cache) (hash : String) (m : Mode) : Option Description :=
  cacheGet c (encodeKey hash m)

/-- Cache insertion keyed by fingerprint and mode. -/
def cachePutHM (c : Cache) (hash : String) (m : Mode) (v : Description) :
    Cache :=
  cachePut c (encodeKey hash m) v

/-- The invariant every reachable `imageCache` satisfies: at most 10
entries (the eviction bound of page.tsx line 351), pairwise-distinct keys
(a JavaScript `Map` cannot hold duplicate keys), and non-empty keys
(every key is a `hash-mode` template literal). -/
def CacheWF (c : Cache) : Prop :=
  c.length ≤ 10 ∧ (cacheKeys c).Nodup ∧ ∀ p ∈ c, p.1 ≠ ""

theorem cacheGet_cons (p : String × Description) (c : Cache) (k : String) :
    cacheGet (p :: c) k = if p.1 = k then some p.2 else cacheGet c k := by
  by_cases h : p.1 = k <;> simp [cacheGet, List.find?_cons, h]

theorem cacheGet_eq_none_iff (c : Cache) (k : String) :
    cacheGet c k = none ↔ ∀ p ∈ c, p.1 ≠ k := by
  simp [cacheGet, List.find?_eq_none]

theorem cacheGet_eq_none_iff_keys (c : Cache) (k : String) :
    cacheGet c k = none ↔ k ∉ cacheKeys c := by
  rw [cacheGet_eq_none_iff]
  constructor
  · intro h hk
    rcases List.mem_map.mp hk with ⟨p, hp, hpk⟩
    exact h p hp hpk
  · intro h p hp hpk
    exact h (List.mem_map.mpr ⟨p, hp, hpk⟩)

theorem cacheGet_append_of_none {c1 : Cache} (c2 : Cache) {k : String}
    (h : cacheGet c1 k = none) :
    cacheGet (c1 ++ c2) k = cacheGet c2 k := by
  have hf : c1.find? (fun p => decide (p.1 = k)) = none := by
    simpa [cacheGet] using h
  simp [cacheGet, List.find?_append, hf]

theorem cacheGet_singleton_self (k : String) (v : Description) :
    cacheGet [(k, v)] k = some v := by
  simp [cacheGet]

theorem mapDelete_cons_of_eq {p : String × Description} {k0 : String}
    (c : Cache) (hp : p.1 = k0) : mapDelete (p :: c) k0 = mapDelete c k0 := by
  simp [mapDelete, hp]

theorem mapDelete_cons_of_ne {p : String × Description} {k0 : String}
    (c : Cache) (hp : p.1 ≠ k0) :
    mapDelete (p :: c) k0 = p :: mapDelete c k0 := by
  simp [mapDelete, hp]

theorem cacheGet_mapDelete_ne {k k0 : String} (hk : k ≠ k0) :
    ∀ c : Cache, cacheGet (mapDelete c k0) k = cacheGet c k := by
  intro c
  induction c with
  | nil => rfl
  | cons p c' ih =>
      by_cases hp : p.1 = k0
      · have hpk : p.1 ≠ k := fun h => hk (h.symm.trans hp)
        rw [mapDelete_cons_of_eq c' hp, ih, cacheGet_cons, if_neg hpk]
      · rw [mapDelete_cons_of_ne c' hp, cacheGet_cons, cacheGet_cons, ih]

theorem cacheGet_replace_self {k : String} (v : Description) :
    ∀ c : Cache, (c.find? (fun p => decide (p.1 = k))).isSome = true →
      cacheGet (c.map (fun p => if p.1 = k then (k, v) else p)) k = some v := by
  intro c
  induction c with
  | nil => intro h; simp at h
  | cons p c' ih =>
      intro h
      by_cases hp : p.1 = k
      · simp [cacheGet, hp]
      · have h' : (c'.find? (fun q => decide (q.1 = k))).isSome = true := by
          rw [List.find?_cons] at h
          simpa [hp] using h
        have hrec := ih h'
        simpa [cacheGet, List.find?_cons, hp] using hrec

theorem mem_mapSet {p : String × Description} {c : Cache} {k : String}
    {v : Description} (h : p ∈ mapSet c k v) : p ∈ c ∨ p = (k, v) := by
  unfold mapSet at h
  split at h
  · rcases List.mem_map.mp h with ⟨q, hq, hfq⟩
    by_cases hqk : q.1 = k
    · right
      simpa [hqk] using hfq.symm
    · left
      have hpq : p = q := by simpa [hqk] using hfq.symm
      rw [hpq]
      exact hq
  · rcases List.mem_append.mp h with hq | hq
    · exact Or.inl hq
    · exact Or.inr (List.mem_singleton.mp hq)

theorem mem_cachePut {p : String × Description} {c : Cache} {k : String}
    {v : Description} (h : p ∈ cachePut c k v) : p ∈ c ∨ p = (k, v) := by
  unfold cachePut at h
  dsimp only at h
  split at h
  · split at h
    · split at h
      · exact mem_mapSet h
      · exact mem_mapSet (List.mem_filter.mp h).1
    · exact mem_mapSet h
  · exact mem_mapSet h

/-- A `put` never creates an entry under any other key: a key absent
before the insertion and different from the inserted key is still absent
afterwards. -/
theorem cachePut_preserves_none {c : Cache} {k k' : String}
    (v : Description) (hne : k' ≠ k) (h : cacheGet c k' = none) :
    cacheGet (cachePut c k v) k' = none := by
  rw [cacheGet_eq_none_iff]
  intro p hp
  rcases mem_cachePut hp with hmem | rfl
  · exact (cacheGet_eq_none_iff c k').mp h p hmem
  · exact fun hk => hne (hk ▸ rfl)

theorem encodeKey_data (h : String) (m : Mode) :
    (encodeKey h m).data = (h.data ++ "-".data) ++ (modeString m).data := by
  show ((h ++ "-") ++ modeString m).data = _
  rw [String.data_append, String.data_append]

theorem encodeKey_ne_empty (h : String) (m : Mode) : encodeKey h m ≠ "" := by
  intro heq
  have hd := congrArg String.data heq
  rw [encodeKey_data] at hd
  cases m <;> simp [modeString] at hd

theorem encodeKey_getLast_narration (h : String) :
    (encodeKey h Mode.narration).data.getLast? = some 'n' := by
  rw [encodeKey_data, List.getLast?_append]
  rfl

theorem encodeKey_getLast_guidance (h : String) :
    (encodeKey h Mode.guidance).data.getLast? = some 'e' := by
  rw [encodeKey_data, List.getLast?_append]
  rfl

/-- The `hash-mode` cache keys of different modes never coincide:
"narration" and "guidance" end in different characters. -/
theorem encodeKey_mode_inj {h1 h2 : String} {m1 m2 : Mode}
    (heq : encodeKey h1 m1 = encodeKey h2 m2) : m1 = m2 := by
  cases m1 <;> cases m2
  · rfl
  · exfalso
    have a := encodeKey_getLast_narration h1
    rw [heq, encodeKey_getLast_guidance h2] at a
    exact absurd a (by decide)
  · exfalso
    have a := encodeKey_getLast_guidance h1
    rw [heq, encodeKey_getLast_narration h2] at a
    exact absurd a (by decide)
  · rfl

/-- The `hash-mode` cache keys of a fixed mode determine the hash. -/
theorem encodeKey_hash_inj (m : Mode) :
    Function.Injective (fun h => encodeKey h m) := by
  intro h1 h2 heq
  have hd : (h1.data ++ "-".data) ++ (modeString m).data =
      (h2.data ++ "-".data) ++ (modeString m).data := by
    have := congrArg String.data heq
    rwa [encodeKey_data, encodeKey_data] at this
  exact String.ext (List.append_cancel_right (List.append_cancel_right hd))

theorem find?_eq_none_of_cacheGet_none {c : Cache} {k : String}
    (h : cacheGet c k = none) :
    c.find? (fun p => decide (p.1 = k)) = none := by
  simpa [cacheGet] using h

/-- `get` after `put` of the same key returns the stored value, on every
cache within the 10-entry bound. -/
theorem cacheGet_cachePut_self {c : Cache} (k : String) (v : Description)
    (hlen : c.length ≤ 10) :
    cacheGet (cachePut c k v) k = some v := by
  by_cases hpres : (c.find? (fun p => decide (p.1 = k))).isSome = true
  · -- the key is already present: `set` replaces in place, no eviction
    have hset : mapSet c k v = c.map (fun p => if p.1 = k then (k, v) else p) := by
      simp [mapSet, hpres]
    have hlenset : (mapSet c k v).length = c.length := by
      rw [hset, List.length_map]
    unfold cachePut
    dsimp only
    rw [if_neg (by rw [hlenset]; omega)]
    rw [hset]
    exact cacheGet_replace_self v c hpres
  · -- the key is fresh: `set` appends at the end
    have hfindnone : c.find? (fun p => decide (p.1 = k)) = none :=
      Option.not_isSome_iff_eq_none.mp (by simpa using hpres)
    have hnone : cacheGet c k = none := by
      simp [cacheGet, hfindnone]
    have hset : mapSet c k v = c ++ [(k, v)] := by
      simp [mapSet, hpres]
    have hget1 : cacheGet (c ++ [(k, v)]) k = some v :=
      (cacheGet_append_of_none [(k, v)] hnone).trans (cacheGet_singleton_self k v)
    unfold cachePut
    dsimp only
    rw [hset]
    by_cases hfull : 10 < (c ++ [(k, v)]).length
    · rw [if_pos hfull]
      cases c with
      | nil => simp at hfull
      | cons p0 c' =>
          rw [show ((p0 :: c') ++ [(k, v)]).head? = some p0 from rfl]
          dsimp only
          by_cases hp0 : p0.1 = ""
          · rw [if_pos hp0]
            exact hget1
          · rw [if_neg hp0]
            have hk0 : k ≠ p0.1 := by
              intro hk
              exact (cacheGet_eq_none_iff _ k).mp hnone p0
                (List.mem_cons_self p0 c') hk.symm
            rw [cacheGet_mapDelete_ne hk0 ((p0 :: c') ++ [(k, v)])]
            exact hget1
    · rw [if_neg hfull]
      exact hget1

/-- Abstract view of a fresh-key insertion: the cache behaves as a FIFO
queue of capacity 10 (enqueue at the back, dequeue the front when full). -/
def queuePut (c : Cache) (e : String × Description) : Cache :=
  if c.length = 10 then c.tail ++ [e] else c ++ [e]

theorem cachePut_fresh_small {c : Cache} {k : String} (v : Description)
    (hfresh : cacheGet c k = none) (hlen : c.length < 10) :
    cachePut c k v = c ++ [(k, v)] := by
  have hpres : (c.find? (fun p => decide (p.1 = k))).isSome = false := by
    simp [find?_eq_none_of_cacheGet_none hfresh]
  have hset : mapSet c k v = c ++ [(k, v)] := by
    simp [mapSet, hpres]
  unfold cachePut
  dsimp only
  rw [hset, if_neg (by simp only [List.length_append, List.length_singleton]; omega)]

theorem cachePut_fresh_full {p0 : String × Description} {c' : Cache}
    {k : String} (v : Description)
    (hfresh : cacheGet (p0 :: c') k = none)
    (hp0ne : p0.1 ≠ "")
    (hp0notin : p0.1 ∉ cacheKeys c')
    (hlen : c'.length = 9) :
    cachePut (p0 :: c') k v = c' ++ [(k, v)] := by
  have hpres : ((p0 :: c').find? (fun p => decide (p.1 = k))).isSome = false := by
    simp [find?_eq_none_of_cacheGet_none hfresh]
  have hset : mapSet (p0 :: c') k v = (p0 :: c') ++ [(k, v)] := by
    simp [mapSet, hpres]
  have hkp0 : k ≠ p0.1 := by
    intro hk
    exact (cacheGet_eq_none_iff _ k).mp hfresh p0 (List.mem_cons_self p0 c') hk.symm
  unfold cachePut
  dsimp only
  rw [hset]
  rw [if_pos (by simp [hlen])]
  rw [show ((p0 :: c') ++ [(k, v)]).head? = some p0 from rfl]
  dsimp only
  rw [if_neg hp0ne]
  rw [show (p0 :: c') ++ [(k, v)] = p0 :: (c' ++ [(k, v)]) from rfl]
  rw [mapDelete_cons_of_eq _ rfl]
  unfold mapDelete
  rw [List.filter_eq_self]
  intro q hq
  rcases List.mem_append.mp hq with hq | hq
  · have hqne : q.1 ≠ p0.1 := fun hqk =>
      hp0notin (hqk ▸ List.mem_map_of_mem Prod.fst hq)
    simp [hqne]
  · rw [List.mem_singleton.mp hq]
    simp [hkp0]

/-- On a well-formed cache a fresh-key `put` is exactly the FIFO queue
step. -/
theorem cachePut_eq_queuePut {c : Cache} {k : String} (v : Description)
    (hwf : CacheWF c) (hfresh : cacheGet c k = none) :
    cachePut c k v = queuePut c (k, v) := by
  obtain ⟨hlen, hkeys, hne⟩ := hwf
  by_cases hfull : c.length = 10
  · cases c with
    | nil => simp at hfull
    | cons p0 c' =>
        rw [queuePut, if_pos hfull]
        have hp0ne := hne p0 (List.mem_cons_self p0 c')
        have hp0notin : p0.1 ∉ cacheKeys c' := by
          have hk : (p0.1 :: cacheKeys c').Nodup := by
            simpa [cacheKeys] using hkeys
          exact (List.nodup_cons.mp hk).1
        have hlen' : c'.length = 9 := by
          simp only [List.length_cons] at hfull
          omega
        exact cachePut_fresh_full v hfresh hp0ne hp0notin hlen'
  · rw [queuePut, if_neg hfull]
    exact cachePut_fresh_small v hfresh (by omega)

theorem queuePut_subset {c : Cache} {e p : String × Description}
    (hp : p ∈ queuePut c e) : p ∈ c ∨ p = e := by
  unfold queuePut at hp
  split at hp <;> rcases List.mem_append.mp hp with h | h
  · exact Or.inl (List.mem_of_mem_tail h)
  · exact Or.inr (List.mem_singleton.mp h)
  · exact Or.inl h
  · exact Or.inr (List.mem_singleton.mp h)

theorem cacheGet_queuePut_none {c : Cache} {e : String × Description}
    {x : String} (hx : cacheGet c x = none) (hxe : x ≠ e.1) :
    cacheGet (queuePut c e) x = none := by
  rw [cacheGet_eq_none_iff]
  intro p hp
  rcases queuePut_subset hp with h | rfl
  · exact (cacheGet_eq_none_iff c x).mp hx p h
  · exact fun hk => hxe hk.symm

theorem queuePut_wf {c : Cache} {e : String × Description}
    (hwf : CacheWF c) (hene : e.1 ≠ "") (hfresh : cacheGet c e.1 = none) :
    CacheWF (queuePut c e) := by
  obtain ⟨hlen, hkeys, hne⟩ := hwf
  have hkmem : e.1 ∉ cacheKeys c := (cacheGet_eq_none_iff_keys c e.1).mp hfresh
  unfold queuePut
  by_cases hfull : c.length = 10
  · rw [if_pos hfull]
    cases c with
    | nil => simp at hfull
    | cons p0 c' =>
        refine ⟨?_, ?_, ?_⟩
        · simp only [List.length_cons] at hfull
          simp only [List.tail_cons, List.length_append, List.length_singleton]
          omega
        · have h1 : (cacheKeys c').Nodup :=
            (List.nodup_cons.mp (by simpa [cacheKeys] using hkeys)).2
          have h2 : e.1 ∉ cacheKeys c' := fun hm =>
            hkmem (by simpa [cacheKeys] using Or.inr hm)
          simp only [List.tail_cons]
          have : cacheKeys (c' ++ [e]) = cacheKeys c' ++ [e.1] := by
            simp [cacheKeys]
          rw [this, List.nodup_append]
          exact ⟨h1, List.nodup_singleton e.1, by
            intro x hx hx'
            rw [List.mem_singleton.mp hx'] at hx
            exact h2 hx⟩
        · intro p hp
          simp only [List.tail_cons] at hp
          rcases List.mem_append.mp hp with hp | hp
          · exact hne p (List.mem_cons_of_mem p0 hp)
          · rw [List.mem_singleton.mp hp]
            exact hene
  · rw [if_neg hfull]
    refine ⟨?_, ?_, ?_⟩
    · simp only [List.length_append, List.length_singleton]
      omega
    · have : cacheKeys (c ++ [e]) = cacheKeys c ++ [e.1] := by
        simp [cacheKeys]
      rw [this, List.nodup_append]
      exact ⟨hkeys, List.nodup_singleton e.1, by
        intro x hx hx'
        rw [List.mem_singleton.mp hx'] at hx
        exact hkmem hx⟩
    · intro p hp
      rcases List.mem_append.mp hp with hp | hp
      · exact hne p hp
      · rw [List.mem_singleton.mp hp]
        exact hene

/-- Folding FIFO queue steps over a batch keeps exactly the last 10
elements of the concatenated sequence. -/
theorem foldl_queuePut_drop :
    ∀ (es : List (String × Description)) (c : Cache), c.length ≤ 10 →
      es.foldl queuePut c = (c ++ es).drop (c.length + es.length - 10) := by
  intro es
  induction es with
  | nil =>
      intro c hlen
      have h0 : c.length + (0 : Nat) - 10 = 0 := by omega
      simp only [List.foldl_nil, List.append_nil, List.length_nil, h0,
        List.drop_zero]
  | cons e es ih =>
      intro c hlen
      rw [List.foldl_cons]
      by_cases hfull : c.length = 10
      · cases c with
        | nil => simp at hfull
        | cons p0 c' =>
            have hlen' : c'.length = 9 := by
              simp only [List.length_cons] at hfull
              omega
            rw [show queuePut (p0 :: c') e = c' ++ [e] from by
              rw [queuePut, if_pos hfull, List.tail_cons]]
            rw [ih (c' ++ [e]) (by simp [hlen'])]
            rw [show (c' ++ [e]) ++ es = c' ++ (e :: es) from by simp]
            rw [show (c' ++ [e]).length + es.length - 10 = es.length from by
              simp [hlen']]
            rw [show (p0 :: c') ++ (e :: es) = p0 :: (c' ++ (e :: es)) from rfl]
            rw [show (p0 :: c').length + (e :: es).length - 10 = es.length + 1 from by
              simp only [List.length_cons, hlen']
              omega]
            rw [List.drop_succ_cons]
      · rw [show queuePut c e = c ++ [e] from by rw [queuePut, if_neg hfull]]
        rw [ih (c ++ [e]) (by simp; omega)]
        rw [show (c ++ [e]) ++ es = c ++ (e :: es) from by simp]
        congr 1
        simp
        omega

/-- A batch of pairwise-distinct fresh-key insertions on a well-formed
cache coincides with the FIFO queue fold. -/
theorem foldl_cachePut_fresh :
    ∀ (es : List (String × Description)) (c : Cache), CacheWF c →
      (es.map Prod.fst).Nodup →
      (∀ p ∈ es, p.1 ≠ "" ∧ cacheGet c p.1 = none) →
      es.foldl (fun acc p => cachePut acc p.1 p.2) c = es.foldl queuePut c := by
  intro es
  induction es with
  | nil => intro c _ _ _; rfl
  | cons e es ih =>
      intro c hwf hnodup hfresh
      have hefresh := hfresh e (List.mem_cons_self e es)
      have he1 : e.1 ∉ es.map Prod.fst :=
        (List.nodup_cons.mp (by simpa using hnodup)).1
      rw [List.foldl_cons, List.foldl_cons,
        cachePut_eq_queuePut e.2 hwf hefresh.2]
      apply ih
      · exact queuePut_wf hwf hefresh.1 hefresh.2
      · exact (List.nodup_cons.mp (by simpa using hnodup)).2
      · intro p hp
        refine ⟨(hfresh p (List.mem_cons_of_mem e hp)).1, ?_⟩
        refine cacheGet_queuePut_none (hfresh p (List.mem_cons_of_mem e hp)).2 ?_
        intro hpe
        exact he1 (hpe ▸ List.mem_map_of_mem Prod.fst hp)

/-- Inserting a batch of fingerprints under one mode, one `optimizedAnalysis`
cache update (page.tsx lines 346-359) per element. -/
def insertAllForMode (c : Cache) (entries : List (String × Description))
    (m : Mode) : Cache :=
  entries.foldl (fun acc p => cachePutHM acc p.1 m p.2) c

/-- Counterexample to claim C4 as stated: the claim quantifies over every
cache state, but when the cache already holds an entry for the same
fingerprint under the other mode, `get(k, m')` after `put(k, m, r)`
returns that pre-existing entry, not null. -/
theorem C4_other_mode_not_null_counterexample :
    cacheGetHM
        (cachePutHM
          (cachePutHM [] "fp" Mode.guidance
            { text := "guidance result", timestamp := 1, mode := Mode.guidance })
          "fp" Mode.narration
          { text := "narration result", timestamp := 2, mode := Mode.narration })
        "fp" Mode.guidance =
      some { text := "guidance result", timestamp := 1, mode := Mode.guidance } := by
  decide

/-- Claim C4 as amended: on every cache satisfying the maintained invariant,
`put(k, m, r)` makes `get(k, m)` return `r`; a `put` never creates an entry
for a different mode, so `get(k, m')` stays null whenever it was null
before; and after inserting 11 pairwise-distinct fresh fingerprints into
the cache bounded at 10 entries, the first-inserted fingerprint has been
evicted (FIFO) and is no longer retrievable. -/
theorem C4_cache_mode_isolation_and_fifo :
    (∀ (c : Cache) (h : String) (m : Mode) (v : Description), CacheWF c →
        cacheGetHM (cachePutHM c h m v) h m = some v) ∧
      (∀ (c : Cache) (h : String) (m m' : Mode) (v : Description),
        m ≠ m' → cacheGetHM c h m' = none →
        cacheGetHM (cachePutHM c h m v) h m' = none) ∧
      (∀ (c : Cache) (m : Mode) (h0 : String) (v0 : Description)
        (rest : List (String × Description)), CacheWF c →
        rest.length = 10 →
        (h0 :: rest.map Prod.fst).Nodup →
        (∀ p ∈ (h0, v0) :: rest, cacheGetHM c p.1 m = none) →
        cacheGetHM (insertAllForMode c ((h0, v0) :: rest) m) h0 m = none) := by
  refine ⟨?_, ?_, ?_⟩
  · intro c h m v hwf
    exact cacheGet_cachePut_self (encodeKey h m) v hwf.1
  · intro c h m m' v hmm hget
    refine cachePut_preserves_none v ?_ hget
    intro heq
    exact hmm (encodeKey_mode_inj heq).symm
  · intro c m h0 v0 rest hwf hlenrest hnodup hfresh
    set entries : List (String × Description) := (h0, v0) :: rest with hentries
    set es : List (String × Description) :=
      entries.map (fun p => (encodeKey p.1 m, p.2)) with hes
    have hstep : insertAllForMode c entries m =
        es.foldl (fun acc p => cachePut acc p.1 p.2) c := by
      rw [hes]
      unfold insertAllForMode cachePutHM
      rw [List.foldl_map]
    have heskeys : es.map Prod.fst =
        (entries.map Prod.fst).map (fun h => encodeKey h m) := by
      simp [hes, List.map_map, Function.comp]
    have hkeysnodup : (es.map Prod.fst).Nodup := by
      rw [heskeys]
      refine List.Nodup.map (encodeKey_hash_inj m) ?_
      simpa [hentries] using hnodup
    have hesfresh : ∀ p ∈ es, p.1 ≠ "" ∧ cacheGet c p.1 = none := by
      intro p hp
      rcases List.mem_map.mp hp with ⟨q, hq, rfl⟩
      exact ⟨encodeKey_ne_empty q.1 m, hfresh q hq⟩
    have heslen : es.length = 11 := by
      simp [hes, hentries, hlenrest]
    have hdrop : insertAllForMode c entries m = es.drop 1 := by
      rw [hstep, foldl_cachePut_fresh es c hwf hkeysnodup hesfresh,
        foldl_queuePut_drop es c hwf.1]
      rw [show c.length + es.length - 10 = c.length + 1 from by omega]
      exact List.drop_append 1
    rw [hdrop]
    unfold cacheGetHM
    rw [cacheGet_eq_none_iff_keys]
    intro hmem
    have hsub : cacheKeys (es.drop 1) =
        (rest.map Prod.fst).map (fun h => encodeKey h m) := by
      simp [hes, hentries, cacheKeys, List.map_map, Function.comp]
    rw [hsub] at hmem
    rcases List.mem_map.mp hmem with ⟨h1, hh1, hkey⟩
    have : h1 = h0 := encodeKey_hash_inj m hkey
    rw [this] at hh1
    exact (List.nodup_cons.mp hnodup).1 hh1

/-- Witness for the amended C4: a concrete `put` followed by `get` on the
empty cache, discharging the invariant hypothesis. -/
theorem C4_cache_mode_isolation_and_fifo_witness :
    cacheGetHM
        (cachePutHM [] "abcd" Mode.narration
          { text := "a desk", timestamp := 3, mode := Mode.narration })
        "abcd" Mode.narration =
      some { text := "a desk", timestamp := 3, mode := Mode.narration } := by
  exact C4_cache_mode_isolation_and_fifo.1 [] "abcd" Mode.narration
    { text := "a desk", timestamp := 3, mode := Mode.narration }
    ⟨by simp, by simp [cacheKeys], by simp⟩

/-! ## `optimizedAnalysis` (page.tsx lines 322-369) -/

/-- The state read and written by `optimizedAnalysis`: the last analyzed
fingerprint (`lastImageHash`, page.tsx line 44, initially the empty
string) and the result cache (`imageCache`, line 45). -/
structure AnalysisState where
  lastImageHash : String
  imageCache : Cache
deriving DecidableEq

/-- `optimizedAnalysis` (page.tsx lines 322-369).  The outcome of
`generateImageHash` is an explicit `Except` input (the promise may
reject); the result `streamAnalysis` would resolve with is the explicit
input `analysisResult`.  Branches: a rejected hash lands in the `catch`
(lines 364-368), which falls back to the plain `streamAnalysis` and
leaves the state untouched; a similar fingerprint (line 328, JavaScript
truthiness of `lastImageHash` plus `areImagesSimilar` at its default
threshold) skips with `null` (line 330); a cache hit returns the cached
result and updates only `lastImageHash` (lines 336-340); otherwise the
new result is stored (lines 346-359) and `lastImageHash` updated
(line 361). -/
def optimizedAnalysis (st : AnalysisState) (hashResult : Except String String)
    (mode : Mode) (analysisResult : Description) :
    AnalysisState × Option Description :=
  match hashResult with
  | Except.error _ => (st, some analysisResult)
  | Except.ok currentHash =>
      if st.lastImageHash ≠ "" ∧
          areImagesSimilar currentHash st.lastImageHash
            defaultSimilarThreshold = true then
        (st, none)
      else
        match cacheGetHM st.imageCache currentHash mode with
        | some cached =>
            ({ st with lastImageHash := currentHash }, some cached)
        | none =>
            ({ lastImageHash := currentHash
               imageCache := cachePutHM st.imageCache currentHash mode
                 analysisResult },
              some analysisResult)

/-- Claim C10: when fingerprint generation fails, `optimizedAnalysis`
catches the error and falls back to the plain streaming analysis — the
cycle still yields the analysis result, only the skip and cache
optimizations (and their state updates) are forfeited. -/
theorem C10_hash_failure_falls_back (st : AnalysisState) (mode : Mode)
    (analysisResult : Description) (msg : String) :
    optimizedAnalysis st (Except.error msg) mode analysisResult =
      (st, some analysisResult) := rfl

/-- The skip policy claim C3 attributes to the code, stated from the
spec's words for comparison: skip a similar frame only while the time
since the last successful guidance update is below a 15-second minimum
refresh interval, otherwise proceed despite similarity. -/
def specClaimedGuidanceSkip (similar : Bool)
    (msSinceLastSuccessfulUpdate : Nat) : Bool :=
  similar && decide (msSinceLastSuccessfulUpdate < 15000)

/-- Counterexample to claim C3 as stated: with 20 seconds elapsed since
the last successful update (past the claimed 15-second bound) and a
similar fingerprint, the claimed policy would proceed with the analysis,
but the code's skip decision takes no time input at all and skips. -/
theorem C3_staleness_bound_counterexample :
    specClaimedGuidanceSkip true 20000 = false ∧
      (optimizedAnalysis
          { lastImageHash := "00000000", imageCache := [] }
          (Except.ok "00000001") Mode.guidance
          { text := "path ahead clear", timestamp := 20, mode := Mode.guidance }).2 =
        none := by
  constructor
  · decide
  · decide

/-- Claim C3 as amended: whenever the new fingerprint is similar to the
last one (and a last fingerprint exists), the cycle is skipped
unconditionally — elapsed time is not an input of the decision, so no
minimum refresh interval bounds staleness. -/
theorem C3_similar_always_skips (st : AnalysisState) (currentHash : String)
    (mode : Mode) (analysisResult : Description)
    (hlast : st.lastImageHash ≠ "")
    (hsim : areImagesSimilar currentHash st.lastImageHash
      defaultSimilarThreshold = true) :
    optimizedAnalysis st (Except.ok currentHash) mode analysisResult =
      (st, none) := by
  simp [optimizedAnalysis, hlast, hsim]

/-- Witness for the amended C3 at a concrete similar pair. -/
theorem C3_similar_always_skips_witness :
    optimizedAnalysis
        { lastImageHash := "11110000", imageCache := [] }
        (Except.ok "11110001") Mode.narration
        { text := "a red door", timestamp := 7, mode := Mode.narration } =
      ({ lastImageHash := "11110000", imageCache := [] }, none) := by
  exact C3_similar_always_skips
    { lastImageHash := "11110000", imageCache := [] } "11110001" Mode.narration
    { text := "a red door", timestamp := 7, mode := Mode.narration }
    (by decide) (by decide)

/-- The similarity threshold in force during a cycle of the given mode:
the call site (page.tsx line 328) passes no threshold argument, so the
default applies whatever the mode is. -/
def similarityThresholdUsed : Mode → Nat :=
  fun _ => defaultSimilarThreshold

/-- Counterexample to claim C5 as stated: the thresholds of the two modes
are not different values — both are the default 6.  Observed through
`optimizedAnalysis` at the 6/7 boundary: a fingerprint at Hamming
distance 6 from the last one is skipped in both modes, and one at
distance 7 proceeds in both modes. -/
theorem C5_thresholds_equal_counterexample :
    similarityThresholdUsed Mode.guidance = 6 ∧
      similarityThresholdUsed Mode.narration = 6 ∧
      (optimizedAnalysis { lastImageHash := "00000000", imageCache := [] }
          (Except.ok "11111100") Mode.guidance
          { text := "hallway", timestamp := 1, mode := Mode.guidance }).2 =
        none ∧
      (optimizedAnalysis { lastImageHash := "00000000", imageCache := [] }
          (Except.ok "11111100") Mode.narration
          { text := "hallway", timestamp := 1, mode := Mode.narration }).2 =
        none ∧
      (optimizedAnalysis { lastImageHash := "00000000", imageCache := [] }
          (Except.ok "11111110") Mode.guidance
          { text := "hallway", timestamp := 1, mode := Mode.guidance }).2 ≠
        none ∧
      (optimizedAnalysis { lastImageHash := "00000000", imageCache := [] }
          (Except.ok "11111110") Mode.narration
          { text := "hallway", timestamp := 1, mode := Mode.narration }).2 ≠
        none := by
  refine ⟨rfl, rfl, by decide, by decide, by decide, by decide⟩

/-- Claim C5 as amended: the skip decision applies one and the same
threshold — the default 6 — in both modes: for every state and
fingerprint, a cycle is skipped exactly when a last fingerprint exists
and the new one is within default-threshold similarity, regardless of
mode. -/
theorem C5_same_threshold_both_modes (st : AnalysisState)
    (currentHash : String) (mode : Mode) (analysisResult : Description) :
    similarityThresholdUsed mode = 6 ∧
      ((optimizedAnalysis st (Except.ok currentHash) mode
            analysisResult).2 = none ↔
        (st.lastImageHash ≠ "" ∧
          areImagesSimilar currentHash st.lastImageHash
            defaultSimilarThreshold = true)) := by
  constructor
  · rfl
  · constructor
    · intro hres
      by_contra hcond
      rw [optimizedAnalysis] at hres
      rw [if_neg hcond] at hres
      rcases hcache : cacheGetHM st.imageCache currentHash mode with _ | cached
      · rw [hcache] at hres
        simp at hres
      · rw [hcache] at hres
        simp at hres
    · intro hcond
      simp [optimizedAnalysis, hcond]

/-- Witness for the amended C5: the skip equivalence instantiated in
guidance mode at a dissimilar concrete pair. -/
theorem C5_same_threshold_both_modes_witness :
    (optimizedAnalysis { lastImageHash := "10101010", imageCache := [] }
        (Except.ok "01010101") Mode.guidance
        { text := "stairs down", timestamp := 9, mode := Mode.guidance }).2 ≠
      none := by
  intro hres
  have h := (C5_same_threshold_both_modes
    { lastImageHash := "10101010", imageCache := [] } "01010101"
    Mode.guidance
    { text := "stairs down", timestamp := 9, mode := Mode.guidance }).2.mp hres
  exact absurd h.2 (by decide)

/-! ## `handleNarrationCapture` (page.tsx lines 372-409) -/

/-- The state of the narration capture handler: the `isLoading` and
`isCameraReady` flags (page.tsx lines 17, 19), whether a debounce timer
is pending (`debounceTimerRef`, line 46), and how many streaming Analysis
Sessions have been opened. -/
structure NarrState where
  isLoading : Bool
  isCameraReady : Bool
  debouncePending : Bool
  sessionsOpened : Nat
deriving DecidableEq

/-- A narration trigger (page.tsx lines 372-381): return immediately while
loading or before the camera is ready (line 373); otherwise clear any
existing debounce timer and schedule a fresh 500 ms one (lines 376-381),
so at most one debounce timer is ever pending and nothing is queued. -/
def narrationTrigger (s : NarrState) : NarrState :=
  if s.isLoading || !s.isCameraReady then s
  else { s with debouncePending := true }

/-- The debounce timer firing (page.tsx lines 381-408): set `isLoading`,
capture, and run the optimized analysis.  `opensSession` says whether the
analysis opens a streaming Analysis Session (a similarity skip or cache
hit does not); in the skip case the `finally` (lines 405-407) has cleared
`isLoading` again by the end of the same run. -/
def narrationDebounceFire (s : NarrState) (opensSession : Bool) : NarrState :=
  if s.debouncePending then
    if opensSession then
      { s with
        debouncePending := false
        isLoading := true
        sessionsOpened := s.sessionsOpened + 1 }
    else
      { s with debouncePending := false, isLoading := false }
  else s

/-- The in-flight cycle resolving: the `finally` of page.tsx lines 405-407
clears `isLoading`. -/
def narrationSessionComplete (s : NarrState) : NarrState :=
  { s with isLoading := false }

/-- Claim C6: while a narration cycle is processing (`isLoading`), a
further trigger is ignored entirely (not queued), and the canonical
rapid-double-trigger trace — trigger, debounce fires opening a session,
two more triggers while the session is in flight, session completes —
opens exactly one Analysis Session. -/
theorem C6_mutual_exclusion :
    (∀ s : NarrState, s.isLoading = true → narrationTrigger s = s) ∧
      (narrationSessionComplete
          (narrationTrigger
            (narrationTrigger
              (narrationDebounceFire
                (narrationTrigger
                  { isLoading := false, isCameraReady := true,
                    debouncePending := false, sessionsOpened := 0 })
                true)))).sessionsOpened = 1 := by
  constructor
  · intro s h
    simp [narrationTrigger, h]
  · decide

/-- Witness for C6: a trigger arriving while loading leaves the state
untouched. -/
theorem C6_mutual_exclusion_witness :
    narrationTrigger
        { isLoading := true, isCameraReady := true, debouncePending := false,
          sessionsOpened := 1 } =
      { isLoading := true, isCameraReady := true, debouncePending := false,
        sessionsOpened := 1 } :=
  C6_mutual_exclusion.1
    { isLoading := true, isCameraReady := true, debouncePending := false,
      sessionsOpened := 1 } rfl

/-! ## `switchMode` (page.tsx lines 414-436) and the guidance timer -/

/-- Component state relevant to a mode switch: the current mode, the
loading and camera flags, the three pending-timer flags (`focusTimerRef`
line 50, `guidanceTimerRef` line 51, `debounceTimerRef` line 46), the
currently playing utterance, and a counter of guidance cycles that have
run. -/
structure AppState where
  currentMode : Mode
  isLoading : Bool
  isCameraReady : Bool
  focusTimerPending : Bool
  guidanceTimerPending : Bool
  debounceTimerPending : Bool
  speech : Option String
  guidanceCyclesRun : Nat
deriving DecidableEq

/-- The announcement spoken on entering a mode
(page.tsx lines 430-435). -/
def modeAnnouncement : Mode → String
  | Mode.narration =>
      "Narration Mode is on now. Tap for details, hold to talk with AI."
  | Mode.guidance =>
      "Guidance Mode is on now. Navigation assistance every 4 seconds."

/-- A `speakWithSettings` call: `speak` (speech.ts lines 17-27) first
cancels the current utterance and audio element, then the new text
becomes the active utterance. -/
def speakCall (s : AppState) (text : String) : AppState :=
  { s with speech := some text }

/-- `switchMode` (page.tsx lines 414-436): a no-op when the target equals
the current mode (line 415); otherwise it clears the focus timer and the
guidance timer (lines 418-425) — and only those — sets the new mode
(line 427), and announces it (lines 430-435). -/
def switchMode (s : AppState) (newMode : Mode) : AppState :=
  if newMode = s.currentMode then s
  else
    speakCall
      { s with
        focusTimerPending := false
        guidanceTimerPending := false
        currentMode := newMode }
      (modeAnnouncement newMode)

/-- A guidance timeout firing (page.tsx lines 442-470): only a pending
timer can fire; the body runs a cycle when still in guidance mode, not
loading and camera-ready (line 444), and reschedules itself only when
still in guidance mode (lines 467-469). -/
def guidanceTimerFire (s : AppState) : AppState :=
  if s.guidanceTimerPending then
    let s1 := { s with guidanceTimerPending := false }
    let s2 :=
      if s1.currentMode = Mode.guidance ∧ s1.isLoading = false ∧
          s1.isCameraReady = true then
        { s1 with guidanceCyclesRun := s1.guidanceCyclesRun + 1 }
      else s1
    if s2.currentMode = Mode.guidance then
      { s2 with guidanceTimerPending := true }
    else s2
  else s

/-- Iterated guidance-timer firings. -/
def fireGuidanceTimers : Nat → AppState → AppState
  | 0, s => s
  | n + 1, s => fireGuidanceTimers n (guidanceTimerFire s)

theorem guidanceTimerFire_no_pending {s : AppState}
    (h : s.guidanceTimerPending = false) : guidanceTimerFire s = s := by
  simp [guidanceTimerFire, h]

theorem fireGuidanceTimers_no_pending (n : Nat) {s : AppState}
    (h : s.guidanceTimerPending = false) : fireGuidanceTimers n s = s := by
  induction n with
  | zero => rfl
  | succ n ih =>
      show fireGuidanceTimers n (guidanceTimerFire s) = s
      rw [guidanceTimerFire_no_pending h, ih]

/-- Counterexample to claim C7 as stated: `switchMode` does not cancel all
pending timers of the outgoing mode — a pending narration debounce timer
(scheduled by `handleNarrationCapture`) survives the switch to guidance
untouched, since lines 418-425 clear only the focus and guidance
timers. -/
theorem C7_debounce_survives_switch_counterexample :
    (switchMode
        { currentMode := Mode.narration, isLoading := false,
          isCameraReady := true, focusTimerPending := false,
          guidanceTimerPending := false, debounceTimerPending := true,
          speech := none, guidanceCyclesRun := 0 }
        Mode.guidance).debounceTimerPending = true := by
  decide

/-- Claim C7 as amended: `switchMode` is a no-op on the current mode; an
actual transition clears the focus and guidance timers (though not a
pending narration debounce timer), and the announcement replaces any
in-flight speech; and after switching from Guidance to Narration no
further guidance cycle ever fires, however many timer events occur. -/
theorem C7_switch_mode_quiescence :
    (∀ s : AppState, switchMode s s.currentMode = s) ∧
      (∀ (s : AppState) (m : Mode), m ≠ s.currentMode →
        (switchMode s m).focusTimerPending = false ∧
          (switchMode s m).guidanceTimerPending = false ∧
          (switchMode s m).speech = some (modeAnnouncement m)) ∧
      (∀ (s : AppState) (n : Nat), s.currentMode = Mode.guidance →
        (fireGuidanceTimers n
            (switchMode s Mode.narration)).guidanceCyclesRun =
          s.guidanceCyclesRun) := by
  refine ⟨?_, ?_, ?_⟩
  · intro s
    simp [switchMode]
  · intro s m hm
    rw [switchMode, if_neg hm]
    exact ⟨rfl, rfl, rfl⟩
  · intro s n hs
    have hm : Mode.narration ≠ s.currentMode := by
      rw [hs]
      decide
    rw [switchMode, if_neg hm]
    rw [fireGuidanceTimers_no_pending n rfl]
    rfl

/-- Witness for the amended C7: three timer events after a concrete
Guidance-to-Narration switch leave the cycle counter at its value 5. -/
theorem C7_switch_mode_quiescence_witness :
    (fireGuidanceTimers 3
        (switchMode
          { currentMode := Mode.guidance, isLoading := false,
            isCameraReady := true, focusTimerPending := false,
            guidanceTimerPending := true, debounceTimerPending := false,
            speech := none, guidanceCyclesRun := 5 }
          Mode.narration)).guidanceCyclesRun = 5 :=
  C7_switch_mode_quiescence.2.2
    { currentMode := Mode.guidance, isLoading := false,
      isCameraReady := true, focusTimerPending := false,
      guidanceTimerPending := true, debounceTimerPending := false,
      speech := none, guidanceCyclesRun := 5 } 3 rfl

/-! ## The guidance-mode timer effect (page.tsx lines 439-483)

On entering guidance mode the effect schedules one 4000 ms timeout
(`scheduleNextGuidanceUpdate`, lines 441-471); each firing optionally runs
one capture cycle and reschedules another 4000 ms timeout.  Those are the
only timers the effect ever creates. -/

/-- Guidance-loop state.  `msSinceLastSuccess` is a ghost clock recording
the time since the last successful guidance update (it influences
nothing — the source keeps no such variable); `retryCount` is the
component's `retryCount` state (page.tsx line 20), which no guidance code
reads or writes; `scheduledDelays` records the delay of every timer the
effect has scheduled, in order. -/
structure GuidState where
  mode : Mode
  isLoading : Bool
  isCameraReady : Bool
  msSinceLastSuccess : Nat
  retryCount : Nat
  cyclesStarted : Nat
  scheduledDelays : List Nat
deriving DecidableEq

/-- One firing of the scheduled guidance timeout (page.tsx lines 442-470):
4000 ms have elapsed waiting for it; the body runs one capture cycle when
still in guidance mode, not loading and camera-ready (line 444) —
`cycleSucceeds` says whether that cycle produced a successful update —
and reschedules another 4000 ms timeout only when still in guidance mode
(lines 467-470). -/
def guidanceTick (s : GuidState) (cycleSucceeds : Bool) : GuidState :=
  let sElapsed := { s with msSinceLastSuccess := s.msSinceLastSuccess + 4000 }
  let sCycle :=
    if sElapsed.mode = Mode.guidance ∧ sElapsed.isLoading = false ∧
        sElapsed.isCameraReady = true then
      if cycleSucceeds then
        { sElapsed with
          cyclesStarted := sElapsed.cyclesStarted + 1
          msSinceLastSuccess := 0 }
      else
        { sElapsed with cyclesStarted := sElapsed.cyclesStarted + 1 }
    else sElapsed
  if sCycle.mode = Mode.guidance then
    { sCycle with scheduledDelays := sCycle.scheduledDelays ++ [4000] }
  else sCycle

/-- Entering guidance mode: the effect schedules the first 4000 ms
timeout (page.tsx line 474). -/
def guidanceEnter (s : GuidState) : GuidState :=
  { s with scheduledDelays := s.scheduledDelays ++ [4000] }

/-- A run of the guidance effect: enter, then one tick per timer firing
with the given cycle outcomes. -/
def guidanceRun (s : GuidState) (outcomes : List Bool) : GuidState :=
  outcomes.foldl guidanceTick (guidanceEnter s)

theorem guidanceTick_retryCount (s : GuidState) (b : Bool) :
    (guidanceTick s b).retryCount = s.retryCount := by
  unfold guidanceTick
  by_cases hm : s.mode = Mode.guidance <;>
    by_cases hl : s.isLoading = false ∧ s.isCameraReady = true <;>
      cases b <;> simp [hm, hl]

theorem guidanceTick_delays (s : GuidState) (b : Bool) :
    ∀ d ∈ (guidanceTick s b).scheduledDelays,
      d ∈ s.scheduledDelays ∨ d = 4000 := by
  intro d hd
  unfold guidanceTick at hd
  by_cases hm : s.mode = Mode.guidance <;>
    by_cases hl : s.isLoading = false ∧ s.isCameraReady = true <;>
      cases b <;> simp [hm, hl] at hd <;> tauto

theorem guidanceTick_cycles (s : GuidState) (b : Bool) :
    (guidanceTick s b).cyclesStarted ≤ s.cyclesStarted + 1 := by
  unfold guidanceTick
  by_cases hm : s.mode = Mode.guidance <;>
    by_cases hl : s.isLoading = false ∧ s.isCameraReady = true <;>
      cases b <;> simp [hm, hl]

theorem foldl_guidanceTick_props (outcomes : List Bool) :
    ∀ s : GuidState,
      (outcomes.foldl guidanceTick s).retryCount = s.retryCount ∧
        (∀ d ∈ (outcomes.foldl guidanceTick s).scheduledDelays,
          d ∈ s.scheduledDelays ∨ d = 4000) ∧
        (outcomes.foldl guidanceTick s).cyclesStarted ≤
          s.cyclesStarted + outcomes.length := by
  induction outcomes with
  | nil =>
      intro s
      exact ⟨rfl, fun d hd => Or.inl hd, by simp⟩
  | cons b bs ih =>
      intro s
      obtain ⟨ihr, ihd, ihc⟩ := ih (guidanceTick s b)
      rw [List.foldl_cons]
      refine ⟨ihr.trans (guidanceTick_retryCount s b), ?_, ?_⟩
      · intro d hd
        rcases ihd d hd with h | h
        · exact guidanceTick_delays s b d h
        · exact Or.inr h
      · have h1 := Nat.add_le_add_right (guidanceTick_cycles s b) bs.length
        have := ihc.trans h1
        simp only [List.length_cons]
        omega

/-- Counterexample to claim C2 as stated: a concrete guidance run of four
consecutive failed ticks reaches 16 s since the last successful update —
past the claimed 12 s stall threshold — with the retry count 0, below the
claimed ceiling of 3; yet every timer the effect ever scheduled is a
4000 ms guidance timeout (no 10-second health check exists), and exactly
the four scheduled ticks started cycles — no extra cycle was forced. -/
theorem C2_health_check_counterexample :
    (guidanceRun
        { mode := Mode.guidance, isLoading := false, isCameraReady := true,
          msSinceLastSuccess := 0, retryCount := 0, cyclesStarted := 0,
          scheduledDelays := [] }
        [false, false, false, false]).msSinceLastSuccess = 16000 ∧
      (guidanceRun
          { mode := Mode.guidance, isLoading := false, isCameraReady := true,
            msSinceLastSuccess := 0, retryCount := 0, cyclesStarted := 0,
            scheduledDelays := [] }
          [false, false, false, false]).retryCount = 0 ∧
      (guidanceRun
          { mode := Mode.guidance, isLoading := false, isCameraReady := true,
            msSinceLastSuccess := 0, retryCount := 0, cyclesStarted := 0,
            scheduledDelays := [] }
          [false, false, false, false]).cyclesStarted = 4 ∧
      (guidanceRun
          { mode := Mode.guidance, isLoading := false, isCameraReady := true,
            msSinceLastSuccess := 0, retryCount := 0, cyclesStarted := 0,
            scheduledDelays := [] }
          [false, false, false, false]).scheduledDelays =
        [4000, 4000, 4000, 4000, 4000] ∧
      10000 ∉
        (guidanceRun
            { mode := Mode.guidance, isLoading := false,
              isCameraReady := true, msSinceLastSuccess := 0,
              retryCount := 0, cyclesStarted := 0, scheduledDelays := [] }
            [false, false, false, false]).scheduledDelays := by
  refine ⟨by decide, by decide, by decide, by decide, by decide⟩

/-- Claim C2 as amended: Guidance mode runs no periodic health check at
all: over every run of the effect, every timer it schedules has the fixed
4000 ms delay (none has a 10-second period), at most one capture cycle is
initiated per scheduled tick (no extra cycle is ever forced outside the
schedule, however stale the last success), and the retry count is never
consulted or changed. -/
theorem C2_no_health_check (s : GuidState) (outcomes : List Bool) :
    (guidanceRun s outcomes).retryCount = s.retryCount ∧
      (∀ d ∈ (guidanceRun s outcomes).scheduledDelays,
        d ∈ s.scheduledDelays ∨ d = 4000) ∧
      (guidanceRun s outcomes).cyclesStarted ≤
        s.cyclesStarted + outcomes.length := by
  obtain ⟨hr, hd, hc⟩ := foldl_guidanceTick_props outcomes (guidanceEnter s)
  refine ⟨hr, ?_, ?_⟩
  · intro d hdm
    rcases hd d hdm with h | h
    · unfold guidanceEnter at h
      simp only at h
      rcases List.mem_append.mp h with h | h
      · exact Or.inl h
      · exact Or.inr (List.mem_singleton.mp h)
    · exact Or.inr h
  · simpa [guidanceEnter] using hc

/-- Witness for the amended C2 on a concrete two-tick run. -/
theorem C2_no_health_check_witness :
    (guidanceRun
        { mode := Mode.guidance, isLoading := false, isCameraReady := true,
          msSinceLastSuccess := 0, retryCount := 2, cyclesStarted := 0,
          scheduledDelays := [] }
        [true, false]).retryCount = 2 ∧
      (4000 ∈ ([] : List Nat) ∨ 4000 = 4000) :=
  ⟨(C2_no_health_check
      { mode := Mode.guidance, isLoading := false, isCameraReady := true,
        msSinceLastSuccess := 0, retryCount := 2, cyclesStarted := 0,
        scheduledDelays := [] }
      [true, false]).1,
    (C2_no_health_check
      { mode := Mode.guidance, isLoading := false, isCameraReady := true,
        msSinceLastSuccess := 0, retryCount := 2, cyclesStarted := 0,
        scheduledDelays := [] }
      [true, false]).2.1 4000 (by decide)⟩

end NaraNetra
